import Mathlib

/-!
Shallow embedding of the worktree-cli repository (mk3008/worktree-cli).

The program is a thin orchestration layer over an external git binary.
We embed it as pure Lean functions:
  * filesystem state is an explicit list of existing paths,
  * every external command invocation is recorded in a trace of tagged
    commands (GitCmd), whose exact source command strings are recovered
    by renderCmd,
  * the outcome of each external command is an explicit oracle argument
    (Except String _, the error carrying the diagnostic text), since the
    tool itself is outside the program,
  * JavaScript string idioms (truthiness of strings, the semantics of
    String.prototype split / replace / substring / includes / trim /
    startsWith / endsWith and Array.prototype sort) are embedded by small
    helper functions below, implemented by structural recursion on the
    character list of the string so that they evaluate inside the kernel.
-/

deriving instance DecidableEq for Except

namespace WorktreeCli

/-- Splitting a character list on a nonempty separator.  The first Nat
argument is fuel, instantiated with the length of the list, which is an
upper bound on the number of steps because every step consumes at least
one character. -/
def splitAux (sep : List Char) : Nat → List Char → List Char → List (List Char)
  | 0, l, acc => [acc.reverse ++ l]
  | _ + 1, [], acc => [acc.reverse]
  | fuel + 1, c :: rest, acc =>
      if sep.isPrefixOf (c :: rest) then
        acc.reverse :: splitAux sep fuel ((c :: rest).drop sep.length) []
      else
        splitAux sep fuel rest (c :: acc)

/-- JS s.split(sep) for a plain nonempty string separator (an empty
separator never occurs in the embedded code). -/
def jsSplit (s sep : String) : List String :=
  if sep.data.isEmpty then [s]
  else (splitAux sep.data s.data.length s.data []).map List.asString

/-- Joining character lists with a separator (used to rebuild the suffix
after the first occurrence of a pattern). -/
def joinSepChars (sep : List Char) : List (List Char) → List Char
  | [] => []
  | [x] => x
  | x :: y :: rest => x ++ sep ++ joinSepChars sep (y :: rest)

/-- Intercalating strings with a separator. -/
def jsIntercalate (sep : String) (l : List String) : String :=
  (joinSepChars sep.data (l.map String.data)).asString

/-- JS s.includes(pat) for a nonempty pattern: true iff pat occurs in s. -/
def containsSubstr (s pat : String) : Bool :=
  (jsSplit s pat).length != 1

/-- JS s.replace(pat, rep) for a plain string pattern: replaces only the
first occurrence of pat, returns s unchanged when pat does not occur. -/
def jsReplaceFirst (s pat rep : String) : String :=
  match jsSplit s pat with
  | [] => s
  | [_] => s
  | a :: rest => a ++ rep ++ jsIntercalate pat rest

/-- JS s.startsWith(pat). -/
def jsStartsWith (s pat : String) : Bool :=
  pat.data.isPrefixOf s.data

/-- JS s.endsWith(pat). -/
def jsEndsWith (s pat : String) : Bool :=
  pat.data.isSuffixOf s.data

/-- JS s.substring(n): drop the first n characters. -/
def jsDrop (s : String) (n : Nat) : String :=
  (s.data.drop n).asString

/-- Dropping the last n characters (stripping a known suffix). -/
def jsDropRight (s : String) (n : Nat) : String :=
  (s.data.take (s.data.length - n)).asString

/-- JS s.trim(): strip leading and trailing whitespace. -/
def jsTrim (s : String) : String :=
  (((s.data.dropWhile Char.isWhitespace).reverse.dropWhile Char.isWhitespace).reverse).asString

/-- Interface RepositoryConfig of RepositoryConfig.ts. -/
structure RepositoryConfig where
  defaultBranch : String
  repositoryUrl : String
  deriving DecidableEq

/-- RepositoryConfigManager.getDefaultBranch: reads the saved config and
returns config?.defaultBranch || null.  The saved (or absent) config is
passed explicitly; JS || maps an empty-string field to null. -/
def getDefaultBranch (saved : Option RepositoryConfig) : Option String :=
  match saved with
  | none => none
  | some cfg => if cfg.defaultBranch = "" then none else some cfg.defaultBranch

/-- parseRepoUrl of cli.ts / wizard.ts: matches url against the regex
/\/([^\/]+?)(\.git)?$/ and returns the capture, else throws
"Invalid repository URL".  The regex matches iff url contains a slash
and the segment after the last slash is nonempty; the lazy capture
strips one trailing ".git" unless the whole segment is ".git" (the
capture needs at least one character). -/
def parseRepoUrl (url : String) : Except String String :=
  match (jsSplit url "/").reverse with
  | [] => .error "Invalid repository URL"
  | [_] => .error "Invalid repository URL"
  | seg :: _ :: _ =>
      if seg = "" then .error "Invalid repository URL"
      else if seg != ".git" && jsEndsWith seg ".git" then .ok (jsDropRight seg 4)
      else .ok seg

/-- One output entry of listWorktrees: given the "worktree <path>" line of
a record and the line two positions after it (none when out of bounds),
builds the string pushed by the loop body.  A missing or empty line two
after the path line is JS-falsy, giving the sentinel "detached"; an
attached record has "branch refs/heads/<name>" there, and the literal
line "detached" of a detached record is left unchanged by the replace. -/
def worktreeEntry (line : String) (branchLine : Option String) : String :=
  let branch :=
    match branchLine with
    | some bl => if bl = "" then "detached" else jsReplaceFirst bl "branch refs/heads/" ""
    | none => "detached"
  (jsDrop line 9) ++ " (" ++ branch ++ ")"

/-- The parsing loop of WorktreeManager.listWorktrees over the porcelain
stdout: split on newlines, every line starting with "worktree " starts a
record, the branch is read from the line two positions later. -/
def parseWorktreeList (stdout : String) : List String :=
  let lines := jsSplit stdout "\n"
  (List.range lines.length).filterMap fun i =>
    match lines.get? i with
    | some line =>
        if jsStartsWith line "worktree " then some (worktreeEntry line (lines.get? (i + 2)))
        else none
    | none => none

/-- The per-line regex match of listRemoteBranches:
line.match(/refs\/heads\/(.+)$/), returning the capture (everything after
the first occurrence of "refs/heads/" whose suffix is nonempty) or null. -/
def extractBranch (line : String) : Option String :=
  match jsSplit line "refs/heads/" with
  | [] => none
  | [_] => none
  | _ :: rest =>
      let name := jsIntercalate "refs/heads/" rest
      if name = "" then none else some name

/-- JS new Set(...) iteration order: keeps the first occurrence of every
element, in input order.  seen accumulates the elements already kept. -/
def dedupKeepFirst (seen : List String) : List String → List String
  | [] => []
  | a :: l => if a ∈ seen then dedupKeepFirst seen l else a :: dedupKeepFirst (a :: seen) l

/-- Lexicographic comparison of character lists by code point, the order
realised by the default JS string comparison used by Array.prototype
sort(). -/
def charListLe : List Char → List Char → Bool
  | [], _ => true
  | _ :: _, [] => false
  | a :: as, b :: bs =>
      if a = b then charListLe as bs
      else decide (a.toNat < b.toNat)

/-- Lexicographic order on strings. -/
def strLe (a b : String) : Bool :=
  charListLe a.data b.data

/-- JS Array.prototype.sort() on strings: sorts lexicographically.  The
elements are pairwise distinct at the call site (after Set-dedup), so any
sorting algorithm realising the order is the same function. -/
def jsSort (l : List String) : List String :=
  List.insertionSort (fun a b => strLe a b = true) l

/-- The pure tail of listRemoteBranches on the stdout lines of
git ls-remote --heads origin: drop blank lines, extract the branch names,
dedup via a Set, sort. -/
def listRemoteBranchesOfLines (lines : List String) : List String :=
  jsSort (dedupKeepFirst [] ((lines.filter fun l => jsTrim l != "").filterMap extractBranch))

/-- listRemoteBranches parsing applied to the raw stdout. -/
def parseRemoteBranches (stdout : String) : List String :=
  listRemoteBranchesOfLines (jsSplit stdout "\n")

/-! The Worktree Lifecycle Manager (WorktreeManager). -/

/-- Constructor arguments (interface WorktreeConfig). -/
structure WorktreeConfig where
  baseDir : String
  repositoryName : String
  defaultBranch : Option String
  deriving DecidableEq

/-- path.join of two segments, as used by the manager. -/
def pathJoin (a b : String) : String :=
  a ++ "/" ++ b

/-- this.repositoryPath = path.join(baseDir, repositoryName). -/
def repositoryPath (c : WorktreeConfig) : String :=
  pathJoin c.baseDir c.repositoryName

/-- this.barePath = path.join(repositoryPath, base-storage name). -/
def barePath (c : WorktreeConfig) : String :=
  pathJoin (repositoryPath c) ".bare"

/-- this.defaultBranch = config.defaultBranch || (the static default). -/
def initDefaultBranch (c : WorktreeConfig) : String :=
  match c.defaultBranch with
  | some s => if s = "" then "main" else s
  | none => "main"

/-- Manager-visible mutable world: the set of existing filesystem paths,
the Configuration Store content (none when the config file is absent),
and the in-memory this.defaultBranch field. -/
structure MgrState where
  fs : List String
  savedConfig : Option RepositoryConfig
  defaultBranch : String
  deriving DecidableEq

/-- The external commands the manager issues, tagged by call site and
carrying the interpolated arguments; renderCmd recovers the exact command
strings of the source. -/
inductive GitCmd where
  | cloneBareRepo (repositoryUrl bare : String)
  | remoteSetHead (bare : String)
  | symbolicRefHead (bare : String)
  | branchRemoteList (bare : String)
  | worktreeAddDefault (bare worktreePath branch : String)
  | fetchOrigin (bare : String)
  | fetchBase (bare base : String)
  | worktreeAddNewBranch (bare worktreePath branch base : String)
  | worktreeListPorcelain (bare : String)
  | worktreeRemoveCmd (bare worktreePath : String) (force : Bool)
  | fetchPruneAll (bare : String)
  | lsRemoteHeads (bare : String)
  | fetchAllRefs (bare : String)
  | worktreeAddTrackRemote (bare worktreePath branch : String)
  | worktreeAddExistingBranch (bare worktreePath branch : String)
  deriving DecidableEq

/-- The command strings of the source, one per call site. -/
def renderCmd : GitCmd → String
  | .cloneBareRepo url bare => "git clone --bare " ++ url ++ " " ++ bare
  | .remoteSetHead bare => "cd \"" ++ bare ++ "\" && git remote set-head origin -a"
  | .symbolicRefHead bare =>
      "cd \"" ++ bare ++ "\" && git symbolic-ref refs/remotes/origin/HEAD | sed \x27s@^refs/remotes/origin/@@\x27"
  | .branchRemoteList bare => "cd \"" ++ bare ++ "\" && git branch -r"
  | .worktreeAddDefault bare wt branch =>
      "cd \"" ++ bare ++ "\" && git worktree add \"" ++ wt ++ "\" " ++ branch
  | .fetchOrigin bare => "cd \"" ++ bare ++ "\" && git fetch origin"
  | .fetchBase bare base =>
      "cd \"" ++ bare ++ "\" && git fetch origin " ++ base ++ ":refs/remotes/origin/" ++ base
  | .worktreeAddNewBranch bare wt branch base =>
      "cd \"" ++ bare ++ "\" && git worktree add -b " ++ branch ++ " \"" ++ wt ++ "\" origin/" ++ base
  | .worktreeListPorcelain bare => "cd \"" ++ bare ++ "\" && git worktree list --porcelain"
  | .worktreeRemoveCmd bare wt force =>
      "cd \"" ++ bare ++ "\" && git worktree remove " ++ (if force then "--force" else "") ++ " \"" ++ wt ++ "\""
  | .fetchPruneAll bare =>
      "cd \"" ++ bare ++ "\" && git fetch --prune origin \"+refs/heads/*:refs/remotes/origin/*\""
  | .lsRemoteHeads bare => "cd \"" ++ bare ++ "\" && git ls-remote --heads origin"
  | .fetchAllRefs bare =>
      "cd \"" ++ bare ++ "\" && git fetch origin \"+refs/heads/*:refs/remotes/origin/*\""
  | .worktreeAddTrackRemote bare wt branch =>
      "cd \"" ++ bare ++ "\" && git worktree add \"" ++ wt ++ "\" -b " ++ branch ++ " origin/" ++ branch
  | .worktreeAddExistingBranch bare wt branch =>
      "cd \"" ++ bare ++ "\" && git worktree add \"" ++ wt ++ "\" " ++ branch

/-- Outcomes of the external commands clone may issue.  An error carries
the diagnostic text of the failed command. -/
structure CloneEnv where
  cloneBareRepo : Except String Unit
  remoteSetHead : Except String Unit
  symbolicRefHead : Except String String
  branchRemoteList : Except String String
  worktreeAddDefault : Except String Unit
  deriving DecidableEq

/-- The three-tier default-branch detection inside clone: (a) set the
remote HEAD and read the symbolic ref (the second command runs only when
the first succeeded), trimming its stdout; (b) on failure, list the
remote branches and prefer origin/main, then origin/master; (c) on
failure again, keep the static in-memory default. -/
def resolveDefaultBranch (env : CloneEnv) (staticDefault : String) : String :=
  match env.remoteSetHead, env.symbolicRefHead with
  | .ok _, .ok out => jsTrim out
  | _, _ =>
      match env.branchRemoteList with
      | .ok branches =>
          if containsSubstr branches "origin/main" then "main"
          else if containsSubstr branches "origin/master" then "master"
          else staticDefault
      | .error _ => staticDefault

/-- The commands tier (a) and (b) actually issue. -/
def detectBranchTrace (c : WorktreeConfig) (env : CloneEnv) : List GitCmd :=
  match env.remoteSetHead, env.symbolicRefHead with
  | .error _, _ => [.remoteSetHead (barePath c), .branchRemoteList (barePath c)]
  | .ok _, .error _ =>
      [.remoteSetHead (barePath c), .symbolicRefHead (barePath c), .branchRemoteList (barePath c)]
  | .ok _, .ok _ => [.remoteSetHead (barePath c), .symbolicRefHead (barePath c)]

/-- WorktreeManager.clone.  Returns the outcome (the error carrying the
wrapped message of the source), the final state, and the trace of issued
commands.  mkdirSync calls add paths to fs; the config save happens
before the default-branch worktree is created, so a failing worktree add
still leaves the config saved. -/
def clone (c : WorktreeConfig) (st : MgrState) (env : CloneEnv) (repositoryUrl : String) :
    Except String Unit × MgrState × List GitCmd :=
  let fs0 := if c.baseDir ∈ st.fs then st.fs else c.baseDir :: st.fs
  if repositoryPath c ∈ fs0 then
    (.error ("Failed to clone repository: Error: Repository directory already exists: " ++ repositoryPath c),
     { st with fs := fs0 }, [])
  else
    let fs1 := repositoryPath c :: fs0
    match env.cloneBareRepo with
    | .error e =>
        (.error ("Failed to clone repository: " ++ e), { st with fs := fs1 },
         [.cloneBareRepo repositoryUrl (barePath c)])
    | .ok _ =>
      let resolved := resolveDefaultBranch env st.defaultBranch
      let wt := pathJoin (repositoryPath c) resolved
      let st2 : MgrState :=
        { fs := fs1
          savedConfig := some { defaultBranch := resolved, repositoryUrl := repositoryUrl }
          defaultBranch := resolved }
      let trace := GitCmd.cloneBareRepo repositoryUrl (barePath c) :: detectBranchTrace c env
          ++ [.worktreeAddDefault (barePath c) wt resolved]
      match env.worktreeAddDefault with
      | .error e => (.error ("Failed to clone repository: " ++ e), st2, trace)
      | .ok _ => (.ok (), { st2 with fs := wt :: st2.fs }, trace)

/-- Outcomes of the external commands createBranch may issue.  The
optional fetchOrigin (pullLatest) outcome is absent from control flow:
its failure is only logged as a warning. -/
structure CreateBranchEnv where
  fetchOrigin : Except String Unit
  fetchBase : Except String Unit
  worktreeAddNewBranch : Except String Unit
  deriving DecidableEq

/-- Base-branch resolution of createBranch:
baseBranch || savedDefaultBranch || this.defaultBranch, with JS falsiness
of the empty string (getDefaultBranch already collapses an empty saved
field to null). -/
def resolveBase (baseBranch : Option String) (saved : Option RepositoryConfig) (staticDefault : String) : String :=
  let fromSaved :=
    match getDefaultBranch saved with
    | some d => d
    | none => staticDefault
  match baseBranch with
  | some b => if b = "" then fromSaved else b
  | none => fromSaved

/-- WorktreeManager.createBranch.  Checks bare storage and target
directory, resolves the base, optionally fetches everything (soft
failure), fetches the base into its remote-tracking ref, then creates
the worktree with a new local branch rooted at origin/<base>. -/
def createBranch (c : WorktreeConfig) (st : MgrState) (env : CreateBranchEnv)
    (branchName : String) (baseBranch : Option String) (pullLatest : Bool) :
    Except String Unit × List GitCmd :=
  if barePath c ∈ st.fs then
    let wt := pathJoin (repositoryPath c) branchName
    if wt ∈ st.fs then
      (.error ("Failed to create branch: Error: Worktree for branch " ++ branchName ++ " already exists"), [])
    else
      let base := resolveBase baseBranch st.savedConfig st.defaultBranch
      let pullTrace : List GitCmd := if pullLatest then [.fetchOrigin (barePath c)] else []
      match env.fetchBase with
      | .error e =>
          (.error ("Failed to create branch: " ++ e), pullTrace ++ [.fetchBase (barePath c) base])
      | .ok _ =>
        let trace := pullTrace ++
          [.fetchBase (barePath c) base, .worktreeAddNewBranch (barePath c) wt branchName base]
        match env.worktreeAddNewBranch with
        | .error e => (.error ("Failed to create branch: " ++ e), trace)
        | .ok _ => (.ok (), trace)
  else
    (.error ("Failed to create branch: Error: Repository not found. Please clone first."), [])

/-- The two distinct throw sites of the removeWorktree catch block. -/
inductive RemoveErr where
  | worktreeDirty (message : String)
  | removalFailed (message : String)
  deriving DecidableEq

/-- The dirty-worktree message built by removeWorktree. -/
def dirtyMessage (repositoryName branchName : String) : String :=
  "Worktree contains modified or untracked files. Use \x27npm run remove:force " ++
    repositoryName ++ " " ++ branchName ++ "\x27 to force removal."

/-- The catch block of removeWorktree: the distinguished dirty error is
raised when force was false and the message of the failure mentions
modified or untracked files; everything else is wrapped generically
(the generic wrap interpolates the Error object, whose toString prefixes
the message). -/
def classifyRemoveFailure (repositoryName branchName : String) (force : Bool) (errorMessage : String) : RemoveErr :=
  if !force && containsSubstr errorMessage "contains modified or untracked files" then
    .worktreeDirty (dirtyMessage repositoryName branchName)
  else
    .removalFailed ("Failed to remove worktree: Error: " ++ errorMessage)

/-- WorktreeManager.removeWorktree.  The bare-storage check throws inside
the try block, so its message also flows through the catch classifier;
execResult is the outcome of the removal command, its error carrying the
diagnostic message. -/
def removeWorktree (c : WorktreeConfig) (st : MgrState) (execResult : Except String Unit)
    (branchName : String) (force : Bool) :
    Except RemoveErr Unit × List GitCmd :=
  if barePath c ∈ st.fs then
    let wt := pathJoin (repositoryPath c) branchName
    match execResult with
    | .ok _ => (.ok (), [.worktreeRemoveCmd (barePath c) wt force])
    | .error e =>
        (.error (classifyRemoveFailure c.repositoryName branchName force e),
         [.worktreeRemoveCmd (barePath c) wt force])
  else
    (.error (classifyRemoveFailure c.repositoryName branchName force "Repository not found."), [])

/-- WorktreeManager.listWorktrees: checks the bare storage, lists the
worktrees in porcelain form and parses the stdout. -/
def listWorktrees (c : WorktreeConfig) (st : MgrState) (execResult : Except String String) :
    Except String (List String) × List GitCmd :=
  if barePath c ∈ st.fs then
    match execResult with
    | .error e => (.error ("Failed to list worktrees: " ++ e), [.worktreeListPorcelain (barePath c)])
    | .ok out => (.ok (parseWorktreeList out), [.worktreeListPorcelain (barePath c)])
  else
    (.error ("Failed to list worktrees: Error: Repository not found. Please clone first."), [])

/-- WorktreeManager.listRemoteBranches: fetch with prune, then parse the
ls-remote output. -/
def listRemoteBranches (c : WorktreeConfig) (st : MgrState)
    (fetchPrune : Except String Unit) (lsRemote : Except String String) :
    Except String (List String) × List GitCmd :=
  if barePath c ∈ st.fs then
    match fetchPrune with
    | .error e => (.error ("Failed to list remote branches: " ++ e), [.fetchPruneAll (barePath c)])
    | .ok _ =>
      match lsRemote with
      | .error e =>
          (.error ("Failed to list remote branches: " ++ e),
           [.fetchPruneAll (barePath c), .lsRemoteHeads (barePath c)])
      | .ok out =>
          (.ok (parseRemoteBranches out), [.fetchPruneAll (barePath c), .lsRemoteHeads (barePath c)])
  else
    (.error ("Failed to list remote branches: Error: Repository not found. Please clone first."), [])

/-- Outcomes of the external commands openRemoteBranch may issue. -/
structure OpenRemoteEnv where
  fetchAllRefs : Except String Unit
  fetchPrune : Except String Unit
  lsRemote : Except String String
  worktreeAddTrackRemote : Except String Unit
  worktreeAddExistingBranch : Except String Unit
  deriving DecidableEq

/-- WorktreeManager.openRemoteBranch.  Short-circuits when the worktree
directory already exists; otherwise fetches all refs, lists the remote
branches (through listRemoteBranches, which fetches again with prune),
validates the branch, then tries to create the worktree with a new local
branch tracking origin/<branch>; on any failure of that attempt it falls
back to binding the worktree to the existing local branch. -/
def openRemoteBranch (c : WorktreeConfig) (st : MgrState) (env : OpenRemoteEnv) (branchName : String) :
    Except String Unit × List GitCmd :=
  if barePath c ∈ st.fs then
    let wt := pathJoin (repositoryPath c) branchName
    if wt ∈ st.fs then (.ok (), [])
    else
      match env.fetchAllRefs with
      | .error e => (.error ("Failed to open remote branch: " ++ e), [.fetchAllRefs (barePath c)])
      | .ok _ =>
        match listRemoteBranches c st env.fetchPrune env.lsRemote with
        | (.error e, tr) =>
            (.error ("Failed to open remote branch: Error: " ++ e), GitCmd.fetchAllRefs (barePath c) :: tr)
        | (.ok remoteBranches, tr) =>
          let trace0 := GitCmd.fetchAllRefs (barePath c) :: tr
          if branchName ∈ remoteBranches then
            match env.worktreeAddTrackRemote with
            | .ok _ => (.ok (), trace0 ++ [.worktreeAddTrackRemote (barePath c) wt branchName])
            | .error _ =>
              let trace1 := trace0 ++
                [.worktreeAddTrackRemote (barePath c) wt branchName,
                 .worktreeAddExistingBranch (barePath c) wt branchName]
              match env.worktreeAddExistingBranch with
              | .ok _ => (.ok (), trace1)
              | .error e2 => (.error ("Failed to open remote branch: " ++ e2), trace1)
          else
            (.error ("Failed to open remote branch: Error: Remote branch \x27" ++ branchName ++
              "\x27 not found. Please check the branch name."), trace0)
  else
    (.error ("Failed to open remote branch: Error: Repository not found. Please clone first."), [])

/-! Theorems settling the claims. -/

set_option maxRecDepth 40000

/-- Claim C9: the repository-name parser returns the clone URL final path
segment with an optional .git suffix stripped; a URL with no path segment
fails with the invalid-repository-URL error. -/
theorem parseRepoUrl_examples :
    parseRepoUrl "https://example.com/group/project.git" = .ok "project" ∧
    parseRepoUrl "https://example.com/group/project" = .ok "project" ∧
    parseRepoUrl "https://example.com/" = .error "Invalid repository URL" := by
  refine ⟨rfl, rfl, rfl⟩

/-- Claim C6: listWorktrees parses porcelain output record-wise; on an
output with three worktree records, two attached to named branches and
one detached, the result is exactly the three path-branch strings in
tool output order (here deliberately not lexicographically sorted), the
detached record labeled detached.  The second conjunct shows the label
also arises from the sentinel branch when the line two positions after
the path line is absent. -/
theorem parseWorktreeList_three_records :
    parseWorktreeList "worktree /repo/b\nHEAD 1111111\nbranch refs/heads/b\n\nworktree /repo/a\nHEAD 2222222\nbranch refs/heads/a\n\nworktree /repo/c\nHEAD 3333333\ndetached\n"
      = ["/repo/b (b)", "/repo/a (a)", "/repo/c (detached)"] ∧
    parseWorktreeList "worktree /repo/b\nHEAD 1111111\nbranch refs/heads/b\n\nworktree /repo/a\nHEAD 2222222\nbranch refs/heads/a\n\nworktree /repo/c\nHEAD 3333333"
      = ["/repo/b (b)", "/repo/a (a)", "/repo/c (detached)"] := by
  refine ⟨by decide, by decide⟩

/-- Claim C10: the parser labels a record detached whenever the line two
positions after its path line is missing or empty, so the bare storage
record of the porcelain output (path line, "bare", blank line) is kept in
the list as an entry for the bare path labeled detached, not filtered out
or labeled as bare. -/
theorem parseWorktreeList_bare_record :
    parseWorktreeList "worktree /base/repo/.bare\nbare\n\nworktree /base/repo/main\nHEAD abc1234\nbranch refs/heads/main\n\n"
      = ["/base/repo/.bare (detached)", "/base/repo/main (main)"] ∧
    parseWorktreeList "worktree /x" = ["/x (detached)"] ∧
    parseWorktreeList "worktree /y\nHEAD 1\n" = ["/y (detached)"] := by
  refine ⟨by decide, by decide, by decide⟩

/-- Claim C5: removeWorktree raises the distinguished dirty-worktree
error exactly when force is false and the diagnostic text of the failed
removal command mentions modified or untracked files; every other
failure, including the same text under force, is wrapped in the generic
removal-failure error (the only two outcomes besides success). -/
theorem removeWorktree_dirty_classification
    (c : WorktreeConfig) (st : MgrState) (execResult : Except String Unit)
    (branchName : String) (force : Bool) :
    ((removeWorktree c st execResult branchName force).1 = .ok () ↔
       (barePath c ∈ st.fs ∧ execResult = .ok ())) ∧
    ((removeWorktree c st execResult branchName force).1 =
        .error (.worktreeDirty (dirtyMessage c.repositoryName branchName)) ↔
       (barePath c ∈ st.fs ∧ force = false ∧
         ∃ e, execResult = .error e ∧
           containsSubstr e "contains modified or untracked files" = true)) ∧
    ((∃ m, (removeWorktree c st execResult branchName force).1 = .error (.removalFailed m)) ↔
       ¬(barePath c ∈ st.fs ∧ execResult = .ok ()) ∧
       ¬(barePath c ∈ st.fs ∧ force = false ∧
         ∃ e, execResult = .error e ∧
           containsSubstr e "contains modified or untracked files" = true)) := by
  by_cases hb : barePath c ∈ st.fs
  · cases execResult with
    | ok u =>
        cases u
        simp [removeWorktree, hb]
    | error e =>
        by_cases hf : force
        · simp [removeWorktree, classifyRemoveFailure, hb, hf]
        · by_cases hc : containsSubstr e "contains modified or untracked files" = true
          · simp [removeWorktree, classifyRemoveFailure, hb, hf, hc]
          · simp [removeWorktree, classifyRemoveFailure, hb, hf, hc]
  · have hcontains :
        containsSubstr "Repository not found." "contains modified or untracked files" = false := by
      decide
    simp [removeWorktree, classifyRemoveFailure, hb, hcontains]

/-- Claim C4: when the target worktree directory already exists (and the
bare storage is present so the earlier precondition passes), createBranch
fails with the worktree-already-exists error and issues no external
command at all: the trace is empty, so neither a fetch nor a
worktree-creation command follows the failed check. -/
theorem createBranch_existing_worktree
    (c : WorktreeConfig) (st : MgrState) (env : CreateBranchEnv)
    (branchName : String) (baseBranch : Option String) (pullLatest : Bool)
    (hbare : barePath c ∈ st.fs)
    (hwt : pathJoin (repositoryPath c) branchName ∈ st.fs) :
    (createBranch c st env branchName baseBranch pullLatest).1 =
      .error ("Failed to create branch: Error: Worktree for branch " ++ branchName ++ " already exists") ∧
    (createBranch c st env branchName baseBranch pullLatest).2 = [] := by
  simp [createBranch, hbare, hwt]

/-- Witness for C4 at a concrete workspace whose feat worktree directory
already exists. -/
theorem createBranch_existing_worktree_witness :
    (createBranch ⟨"/base", "repo", none⟩
        ⟨["/base/repo/.bare", "/base/repo/feat"], none, "main"⟩
        ⟨.ok (), .ok (), .ok ()⟩ "feat" none false).1 =
      .error ("Failed to create branch: Error: Worktree for branch " ++ "feat" ++ " already exists") ∧
    (createBranch ⟨"/base", "repo", none⟩
        ⟨["/base/repo/.bare", "/base/repo/feat"], none, "main"⟩
        ⟨.ok (), .ok (), .ok ()⟩ "feat" none false).2 = [] :=
  createBranch_existing_worktree ⟨"/base", "repo", none⟩
    ⟨["/base/repo/.bare", "/base/repo/feat"], none, "main"⟩
    ⟨.ok (), .ok (), .ok ()⟩ "feat" none false (by decide) (by decide)

/-- Claim C3: createBranch resolves the base branch with the fixed
priority explicit argument, then the saved default of the Configuration
Store, then the static in-memory default; concretely, a workspace with
stored default develop and no explicit base creates the new branch from
origin/develop (the worktree-add command interpolates origin/<base>). -/
theorem createBranch_base_priority :
    (∀ b saved staticDefault, b ≠ "" → resolveBase (some b) saved staticDefault = b) ∧
    (∀ d u staticDefault, d ≠ "" →
        resolveBase none (some ⟨d, u⟩) staticDefault = d) ∧
    (∀ staticDefault, resolveBase none none staticDefault = staticDefault) ∧
    (createBranch ⟨"/base", "repo", none⟩
        ⟨["/base/repo/.bare"], some ⟨"develop", "https://example.com/g/repo.git"⟩, "main"⟩
        ⟨.ok (), .ok (), .ok ()⟩ "feature1" none false).2
      = [.fetchBase "/base/repo/.bare" "develop",
         .worktreeAddNewBranch "/base/repo/.bare" "/base/repo/feature1" "feature1" "develop"] ∧
    renderCmd (.worktreeAddNewBranch "/base/repo/.bare" "/base/repo/feature1" "feature1" "develop")
      = "cd \"/base/repo/.bare\" && git worktree add -b feature1 \"/base/repo/feature1\" origin/develop" := by
  refine ⟨?_, ?_, ?_, by decide, by decide⟩
  · intro b saved staticDefault hb
    simp [resolveBase, hb]
  · intro d u staticDefault hd
    simp [resolveBase, getDefaultBranch, hd]
  · intro staticDefault
    simp [resolveBase, getDefaultBranch]

/-- Witness for C3 instantiating the three resolution tiers. -/
theorem createBranch_base_priority_witness :
    resolveBase (some "hotfix") (some ⟨"develop", "u"⟩) "main" = "hotfix" ∧
    resolveBase none (some ⟨"develop", "u"⟩) "main" = "develop" ∧
    resolveBase none none "main" = "main" :=
  ⟨createBranch_base_priority.1 "hotfix" (some ⟨"develop", "u"⟩) "main" (by decide),
   createBranch_base_priority.2.1 "develop" "u" "main" (by decide),
   createBranch_base_priority.2.2.1 "main"⟩

/-- q lies strictly under directory d. -/
def isUnder (q d : String) : Prop :=
  ∃ r, q = d ++ "/" ++ r

theorem length_pathJoin (a b : String) : (pathJoin a b).length = a.length + 1 + b.length := by
  have h1 : "/".length = 1 := rfl
  simp [pathJoin, String.length_append, h1]

/-- Claim C2: cloning into an already-present workspace directory fails
with the workspace-already-exists error, invokes no external command,
leaves the Configuration Store untouched and neither creates, modifies
nor deletes anything under the existing workspace directory (the only
filesystem write on this path is the base directory itself, which is
never under the workspace directory). -/
theorem clone_workspace_exists
    (c : WorktreeConfig) (st : MgrState) (env : CloneEnv) (repositoryUrl : String)
    (h : repositoryPath c ∈ st.fs) :
    (clone c st env repositoryUrl).1 =
      .error ("Failed to clone repository: Error: Repository directory already exists: " ++ repositoryPath c) ∧
    (clone c st env repositoryUrl).2.2 = [] ∧
    (clone c st env repositoryUrl).2.1.savedConfig = st.savedConfig ∧
    ∀ q, isUnder q (repositoryPath c) → (q ∈ (clone c st env repositoryUrl).2.1.fs ↔ q ∈ st.fs) := by
  have hq : ∀ q, isUnder q (repositoryPath c) → q ≠ c.baseDir := by
    intro q hu heq
    obtain ⟨r, hr⟩ := hu
    have hlen : q.length = (repositoryPath c).length + 1 + r.length := by
      have h1 : "/".length = 1 := rfl
      rw [hr]
      simp [String.length_append, h1]
    have hlen2 : (repositoryPath c).length = c.baseDir.length + 1 + c.repositoryName.length :=
      length_pathJoin c.baseDir c.repositoryName
    rw [heq] at hlen
    omega
  by_cases hbase : c.baseDir ∈ st.fs
  · have hmem : repositoryPath c ∈ (if c.baseDir ∈ st.fs then st.fs else c.baseDir :: st.fs) := by
      simp [hbase, h]
    simp [clone, hbase, h]
  · have hmem : repositoryPath c ∈ c.baseDir :: st.fs := by simp [h]
    refine ⟨?_, ?_, ?_, ?_⟩ <;>
      simp [clone, hbase, hmem]
    intro q hu
    have := hq q hu
    simp [this]

/-- Witness for C2 at a concrete state already containing the workspace
directory. -/
theorem clone_workspace_exists_witness :
    (clone ⟨"/base", "repo", none⟩ ⟨["/base", "/base/repo"], none, "main"⟩
        ⟨.ok (), .ok (), .ok "develop\n", .ok "", .ok ()⟩ "https://example.com/g/repo.git").1 =
      .error ("Failed to clone repository: Error: Repository directory already exists: " ++
        repositoryPath ⟨"/base", "repo", none⟩) ∧
    (clone ⟨"/base", "repo", none⟩ ⟨["/base", "/base/repo"], none, "main"⟩
        ⟨.ok (), .ok (), .ok "develop\n", .ok "", .ok ()⟩ "https://example.com/g/repo.git").2.2 = [] :=
  ⟨(clone_workspace_exists ⟨"/base", "repo", none⟩ ⟨["/base", "/base/repo"], none, "main"⟩
      ⟨.ok (), .ok (), .ok "develop\n", .ok "", .ok ()⟩ "https://example.com/g/repo.git" (by decide)).1,
   (clone_workspace_exists ⟨"/base", "repo", none⟩ ⟨["/base", "/base/repo"], none, "main"⟩
      ⟨.ok (), .ok (), .ok "develop\n", .ok "", .ok ()⟩ "https://example.com/g/repo.git" (by decide)).2.1⟩

/-- Claim C1: after a successful clone the persisted configuration is
exactly the resolved default branch and the clone URL; the resolution
follows the three tiers of resolveDefaultBranch (symbolic HEAD trimmed,
else remote branch list preferring main then master, else the static
default); and whenever tier (a) succeeds yielding a branch B (nonempty
trimmed output), a subsequent getDefaultBranch returns exactly B. -/
theorem clone_resolves_default_branch
    (c : WorktreeConfig) (st : MgrState) (env : CloneEnv) (repositoryUrl : String) :
    ((clone c st env repositoryUrl).1 = .ok () →
        (clone c st env repositoryUrl).2.1.savedConfig =
          some ⟨resolveDefaultBranch env st.defaultBranch, repositoryUrl⟩) ∧
    (∀ out, env.remoteSetHead = .ok () → env.symbolicRefHead = .ok out →
        resolveDefaultBranch env st.defaultBranch = jsTrim out) ∧
    (∀ out, env.remoteSetHead = .ok () → env.symbolicRefHead = .ok out → jsTrim out ≠ "" →
        (clone c st env repositoryUrl).1 = .ok () →
        getDefaultBranch (clone c st env repositoryUrl).2.1.savedConfig = some (jsTrim out)) ∧
    ((env.remoteSetHead.isOk = false ∨ env.symbolicRefHead.isOk = false) →
      ∀ s, env.branchRemoteList = .ok s →
        resolveDefaultBranch env st.defaultBranch =
          (if containsSubstr s "origin/main" then "main"
           else if containsSubstr s "origin/master" then "master"
           else st.defaultBranch)) ∧
    ((env.remoteSetHead.isOk = false ∨ env.symbolicRefHead.isOk = false) →
      env.branchRemoteList.isOk = false →
        resolveDefaultBranch env st.defaultBranch = st.defaultBranch) := by
  have hmain : (clone c st env repositoryUrl).1 = .ok () →
      (clone c st env repositoryUrl).2.1.savedConfig =
        some ⟨resolveDefaultBranch env st.defaultBranch, repositoryUrl⟩ := by
    intro hok
    by_cases hrepo : repositoryPath c ∈ (if c.baseDir ∈ st.fs then st.fs else c.baseDir :: st.fs)
    · simp [clone, hrepo] at hok
    · match hclone : env.cloneBareRepo with
      | .error e => simp [clone, hrepo, hclone] at hok
      | .ok u =>
        cases u
        match hadd : env.worktreeAddDefault with
        | .error e => simp [clone, hrepo, hclone, hadd] at hok
        | .ok u2 =>
          cases u2
          simp [clone, hrepo, hclone, hadd]
  refine ⟨hmain, ?_, ?_, ?_, ?_⟩
  · intro out h1 h2
    simp [resolveDefaultBranch, h1, h2]
  · intro out h1 h2 hne hok
    have hres : resolveDefaultBranch env st.defaultBranch = jsTrim out := by
      simp [resolveDefaultBranch, h1, h2]
    rw [hmain hok, hres]
    simp [getDefaultBranch, hne]
  · intro htierA s hbl
    match hsh : env.remoteSetHead, hsr : env.symbolicRefHead with
    | .ok u, .ok out =>
        cases u
        rw [hsh, hsr] at htierA
        simp [Except.isOk, Except.toBool] at htierA
    | .ok u, .error e => simp [resolveDefaultBranch, hsh, hsr, hbl]
    | .error e, .ok out => simp [resolveDefaultBranch, hsh, hsr, hbl]
    | .error e, .error e2 => simp [resolveDefaultBranch, hsh, hsr, hbl]
  · intro htierA hblFail
    match hbl : env.branchRemoteList with
    | .ok s =>
        rw [hbl] at hblFail
        simp [Except.isOk, Except.toBool] at hblFail
    | .error e =>
      match hsh : env.remoteSetHead, hsr : env.symbolicRefHead with
      | .ok u, .ok out =>
          cases u
          rw [hsh, hsr] at htierA
          simp [Except.isOk, Except.toBool] at htierA
      | .ok u, .error e2 => simp [resolveDefaultBranch, hsh, hsr, hbl]
      | .error e2, .ok out => simp [resolveDefaultBranch, hsh, hsr, hbl]
      | .error e2, .error e3 => simp [resolveDefaultBranch, hsh, hsr, hbl]

/-- Witness for C1: a remote whose symbolic HEAD resolves to develop; the
persisted default branch read back is develop, not the static main. -/
theorem clone_resolves_default_branch_witness :
    getDefaultBranch (clone ⟨"/base", "repo", none⟩ ⟨["/base"], none, "main"⟩
        ⟨.ok (), .ok (), .ok "develop\n", .ok "", .ok ()⟩
        "https://example.com/g/repo.git").2.1.savedConfig = some (jsTrim "develop\n") ∧
    jsTrim "develop\n" = "develop" :=
  ⟨(clone_resolves_default_branch ⟨"/base", "repo", none⟩ ⟨["/base"], none, "main"⟩
      ⟨.ok (), .ok (), .ok "develop\n", .ok "", .ok ()⟩
      "https://example.com/g/repo.git").2.2.1 "develop\n" rfl rfl (by decide) (by decide),
   by decide⟩

/-- Claim C7 (amended): in openRemoteBranch, the fallback that binds the
worktree to the pre-existing local branch is performed if and only if the
first worktree-creation attempt is reached and fails, regardless of the
cause of that failure: the catch block does not inspect the error, it
assumes an already-existing local branch. -/
theorem openRemoteBranch_fallback_iff
    (c : WorktreeConfig) (st : MgrState) (env : OpenRemoteEnv) (branchName : String) :
    (GitCmd.worktreeAddExistingBranch (barePath c) (pathJoin (repositoryPath c) branchName) branchName
        ∈ (openRemoteBranch c st env branchName).2) ↔
    (barePath c ∈ st.fs ∧ pathJoin (repositoryPath c) branchName ∉ st.fs ∧
     env.fetchAllRefs = .ok () ∧ env.fetchPrune = .ok () ∧
     (∃ out, env.lsRemote = .ok out ∧ branchName ∈ parseRemoteBranches out) ∧
     ∃ e, env.worktreeAddTrackRemote = .error e) := by
  by_cases hb : barePath c ∈ st.fs
  · by_cases hwt : pathJoin (repositoryPath c) branchName ∈ st.fs
    · simp [openRemoteBranch, hb, hwt]
    · match hfa : env.fetchAllRefs with
      | .error e => simp [openRemoteBranch, hb, hwt, hfa]
      | .ok u =>
        cases u
        match hfp : env.fetchPrune with
        | .error e => simp [openRemoteBranch, listRemoteBranches, hb, hwt, hfa, hfp]
        | .ok u2 =>
          cases u2
          match hls : env.lsRemote with
          | .error e => simp [openRemoteBranch, listRemoteBranches, hb, hwt, hfa, hfp, hls]
          | .ok out =>
            by_cases hmem : branchName ∈ parseRemoteBranches out
            · match hadd : env.worktreeAddTrackRemote with
              | .ok u3 =>
                  cases u3
                  simp [openRemoteBranch, listRemoteBranches, hb, hwt, hfa, hfp, hls, hmem, hadd]
              | .error e =>
                match hadd2 : env.worktreeAddExistingBranch with
                | .ok u4 =>
                    cases u4
                    simp [openRemoteBranch, listRemoteBranches, hb, hwt, hfa, hfp, hls, hmem, hadd,
                      hadd2]
                | .error e2 =>
                    simp [openRemoteBranch, listRemoteBranches, hb, hwt, hfa, hfp, hls, hmem, hadd,
                      hadd2]
            · simp [openRemoteBranch, listRemoteBranches, hb, hwt, hfa, hfp, hls, hmem]
  · simp [openRemoteBranch, hb]

/-- Counterexample to C7 as stated: the first worktree-creation attempt
fails with a diagnostic that does not mention an already-existing branch
(a directory-creation failure), yet the fallback command binding the
existing local branch is still issued. -/
theorem openRemoteBranch_fallback_counterexample :
    (GitCmd.worktreeAddExistingBranch "/base/repo/.bare" "/base/repo/feat" "feat"
        ∈ (openRemoteBranch ⟨"/base", "repo", none⟩ ⟨["/base/repo/.bare"], none, "main"⟩
            ⟨.ok (), .ok (), .ok "1234567 refs/heads/feat",
             .error "fatal: could not create directory", .ok ()⟩ "feat").2) ∧
    (openRemoteBranch ⟨"/base", "repo", none⟩ ⟨["/base/repo/.bare"], none, "main"⟩
        ⟨.ok (), .ok (), .ok "1234567 refs/heads/feat",
         .error "fatal: could not create directory", .ok ()⟩ "feat").1 = .ok () ∧
    containsSubstr "fatal: could not create directory" "already exists" = false := by
  refine ⟨by decide, by decide, by decide⟩

/-! Order and dedup lemmas for listRemoteBranches. -/

theorem charListLe_total : ∀ x y : List Char, charListLe x y = true ∨ charListLe y x = true := by
  intro x
  induction x with
  | nil => intro y; left; rfl
  | cons a as ih =>
    intro y
    cases y with
    | nil => right; rfl
    | cons b bs =>
      by_cases hab : a = b
      · subst hab
        rcases ih bs with h | h
        · left; simpa [charListLe] using h
        · right; simpa [charListLe] using h
      · have hba : ¬b = a := fun h => hab h.symm
        rcases Nat.lt_trichotomy a.toNat b.toNat with h | h | h
        · left; simp [charListLe, hab, h]
        · exact absurd (Char.ext (UInt32.ext h)) hab
        · right; simp [charListLe, hba, h]

theorem charListLe_trans :
    ∀ x y z : List Char, charListLe x y = true → charListLe y z = true → charListLe x z = true := by
  intro x
  induction x with
  | nil => intro y z _ _; rfl
  | cons a as ih =>
    intro y z hxy hyz
    cases y with
    | nil => simp [charListLe] at hxy
    | cons b bs =>
      cases z with
      | nil => simp [charListLe] at hyz
      | cons c₀ cs =>
        by_cases hab : a = b
        · subst hab
          by_cases hbc : a = c₀
          · subst hbc
            simp [charListLe] at hxy hyz ⊢
            exact ih bs cs hxy hyz
          · simp [charListLe, hbc] at hyz ⊢
            exact hyz
        · by_cases hbc : b = c₀
          · subst hbc
            simp [charListLe, hab] at hxy ⊢
            exact hxy
          · simp [charListLe, hab] at hxy
            simp [charListLe, hbc] at hyz
            have hac : a.toNat < c₀.toNat := Nat.lt_trans hxy hyz
            by_cases h2 : a = c₀
            · subst h2
              exact absurd hac (Nat.lt_irrefl _)
            · simp [charListLe, h2, hac]

theorem charListLe_antisymm :
    ∀ x y : List Char, charListLe x y = true → charListLe y x = true → x = y := by
  intro x
  induction x with
  | nil =>
    intro y hxy hyx
    cases y with
    | nil => rfl
    | cons b bs => simp [charListLe] at hyx
  | cons a as ih =>
    intro y hxy hyx
    cases y with
    | nil => simp [charListLe] at hxy
    | cons b bs =>
      by_cases hab : a = b
      · subst hab
        simp [charListLe] at hxy hyx
        rw [ih bs hxy hyx]
      · have hba : ¬b = a := fun h => hab h.symm
        simp [charListLe, hab] at hxy
        simp [charListLe, hba] at hyx
        omega

theorem strLe_total (a b : String) : strLe a b = true ∨ strLe b a = true :=
  charListLe_total a.data b.data

theorem strLe_trans (a b c : String) (h1 : strLe a b = true) (h2 : strLe b c = true) :
    strLe a c = true :=
  charListLe_trans a.data b.data c.data h1 h2

theorem strLe_antisymm (a b : String) (h1 : strLe a b = true) (h2 : strLe b a = true) : a = b := by
  cases a with
  | mk da =>
    cases b with
    | mk db =>
      have h := charListLe_antisymm da db h1 h2
      rw [h]

instance : IsTotal String fun a b => strLe a b = true :=
  ⟨strLe_total⟩

instance : IsTrans String fun a b => strLe a b = true :=
  ⟨strLe_trans⟩

instance : IsAntisymm String fun a b => strLe a b = true :=
  ⟨strLe_antisymm⟩

theorem mem_dedupKeepFirst (a : String) :
    ∀ (l seen : List String), a ∈ dedupKeepFirst seen l ↔ (a ∈ l ∧ a ∉ seen) := by
  intro l
  induction l with
  | nil => intro seen; simp [dedupKeepFirst]
  | cons b l ih =>
    intro seen
    by_cases hb : b ∈ seen
    · rw [dedupKeepFirst, if_pos hb, ih seen]
      constructor
      · rintro ⟨h1, h2⟩
        exact ⟨List.mem_cons_of_mem b h1, h2⟩
      · rintro ⟨h1, h2⟩
        rcases List.mem_cons.mp h1 with rfl | h1
        · exact absurd hb h2
        · exact ⟨h1, h2⟩
    · rw [dedupKeepFirst, if_neg hb]
      constructor
      · intro h
        rcases List.mem_cons.mp h with rfl | h
        · exact ⟨List.mem_cons_self a l, hb⟩
        · rw [ih (b :: seen)] at h
          obtain ⟨h1, h2⟩ := h
          refine ⟨List.mem_cons_of_mem b h1, fun hs => h2 (List.mem_cons_of_mem b hs)⟩
      · rintro ⟨h1, h2⟩
        rcases List.mem_cons.mp h1 with rfl | h1
        · exact List.mem_cons_self a _
        · by_cases hab : a = b
          · subst hab
            exact List.mem_cons_self a _
          · refine List.mem_cons_of_mem b ?_
            rw [ih (b :: seen)]
            refine ⟨h1, fun hs => ?_⟩
            rcases List.mem_cons.mp hs with h | h
            · exact hab h
            · exact h2 h

theorem nodup_dedupKeepFirst : ∀ (l seen : List String), (dedupKeepFirst seen l).Nodup := by
  intro l
  induction l with
  | nil => intro seen; simp [dedupKeepFirst]
  | cons b l ih =>
    intro seen
    by_cases hb : b ∈ seen
    · rw [dedupKeepFirst, if_pos hb]
      exact ih seen
    · rw [dedupKeepFirst, if_neg hb]
      refine List.nodup_cons.mpr ⟨?_, ih (b :: seen)⟩
      intro hmem
      rw [mem_dedupKeepFirst] at hmem
      exact hmem.2 (List.mem_cons_self b seen)

/-- Claim C8: listRemoteBranches returns a duplicate-free list sorted in
lexicographic order, and the result is invariant under permutation of
the remote-listing lines; the last conjunct shows dedup and sort on a
concrete listing whose remote order is neither deduplicated nor
sorted. -/
theorem listRemoteBranches_sorted_dedup :
    (∀ stdout, List.Sorted (fun a b => strLe a b = true) (parseRemoteBranches stdout)) ∧
    (∀ stdout, (parseRemoteBranches stdout).Nodup) ∧
    (∀ lines₁ lines₂ : List String, lines₁.Perm lines₂ →
        listRemoteBranchesOfLines lines₁ = listRemoteBranchesOfLines lines₂) ∧
    parseRemoteBranches "abc\trefs/heads/main\ndef\trefs/heads/develop\n\nabc\trefs/heads/main"
      = ["develop", "main"] := by
  refine ⟨?_, ?_, ?_, by decide⟩
  · intro stdout
    exact List.sorted_insertionSort _ _
  · intro stdout
    exact ((List.perm_insertionSort _ _).nodup_iff).mpr (nodup_dedupKeepFirst _ _)
  · intro l1 l2 hp
    have he : ((l1.filter fun l => jsTrim l != "").filterMap extractBranch).Perm
        ((l2.filter fun l => jsTrim l != "").filterMap extractBranch) :=
      (hp.filter _).filterMap _
    have hd : (dedupKeepFirst [] ((l1.filter fun l => jsTrim l != "").filterMap extractBranch)).Perm
        (dedupKeepFirst [] ((l2.filter fun l => jsTrim l != "").filterMap extractBranch)) := by
      rw [List.perm_ext_iff_of_nodup (nodup_dedupKeepFirst _ _) (nodup_dedupKeepFirst _ _)]
      intro a
      rw [mem_dedupKeepFirst, mem_dedupKeepFirst]
      simp [he.mem_iff]
    unfold listRemoteBranchesOfLines jsSort
    exact List.eq_of_perm_of_sorted
      ((List.perm_insertionSort _ _).trans (hd.trans (List.perm_insertionSort _ _).symm))
      (List.sorted_insertionSort _ _) (List.sorted_insertionSort _ _)

/-- Witness for C8: two listings that are permutations of one another
parse to the same branch list. -/
theorem listRemoteBranches_sorted_dedup_witness :
    (["sha1 refs/heads/main", "sha2 refs/heads/develop"].Perm
       ["sha2 refs/heads/develop", "sha1 refs/heads/main"]) ∧
    listRemoteBranchesOfLines ["sha1 refs/heads/main", "sha2 refs/heads/develop"] =
      listRemoteBranchesOfLines ["sha2 refs/heads/develop", "sha1 refs/heads/main"] :=
  ⟨List.Perm.swap "sha2 refs/heads/develop" "sha1 refs/heads/main" [],
   listRemoteBranches_sorted_dedup.2.2.1 _ _
     (List.Perm.swap "sha2 refs/heads/develop" "sha1 refs/heads/main" [])⟩

end WorktreeCli
